import Mathlib

/-!
Verification of the PLAPT command-line front end (`plapt_cli.py`).

The file shallowly embeds the input-resolution, cardinality-reconciliation,
result-formatting and output-writing layers of the script.  Filesystem
probing, the format-specific file readers and the affinity predictor are
external collaborators: they are modelled as explicitly passed functions
(`fs`, `run`, `predict`), exactly at the boundaries where the Python code
calls into `pathlib`, Biopython/RDKit, or the `Plapt` model.  Fallible
Python code (functions that may `raise`) is embedded as `Except String`,
carrying the exception message.  Python floats are embedded as rationals:
every finite IEEE double denotes a rational exactly, and the claims under
study involve only the values the predictor hands back, unchanged or
rendered in decimal.

Python string primitives (`lower`, `upper`, slicing, splitting) are
embedded as structurally recursive functions on the character list of a
`String`, so that every definition evaluates inside the kernel; Python
indexes and slices strings by code point, exactly the `Char`s of the list.
-/

/-- Characters removed by Python's `str.strip()` with no argument. -/
def isPySpace (c : Char) : Bool :=
  c = ' ' || c = '\t' || c = '\n' || c = '\r' || c = '\x0b' || c = '\x0c'

/-- Python `str.strip()`: drop leading and trailing whitespace. -/
def pyStrip (s : String) : String :=
  (((s.data.dropWhile isPySpace).reverse.dropWhile isPySpace).reverse).asString

/-- Split a character list at every occurrence of `sep`; the pieces do not
contain `sep`, and `n` separators yield `n + 1` pieces (Python
`str.split(sep)` for a one-character separator). -/
def splitChar (sep : Char) : List Char → List (List Char)
  | [] => [[]]
  | c :: cs =>
    match splitChar sep cs with
    | [] => [[]]
    | l :: ls => if c = sep then [] :: l :: ls else (c :: l) :: ls

/-- Split a string at every occurrence of the character `sep`. -/
def strSplit (s : String) (sep : Char) : List String :=
  (splitChar sep s.data).map List.asString

/-- Python `str.lower()` (ASCII range; the strings dispatched on here are
file extensions). -/
def strToLower (s : String) : String :=
  (s.data.map Char.toLower).asString

/-- Python `str.upper()` (ASCII range). -/
def strToUpper (s : String) : String :=
  (s.data.map Char.toUpper).asString

/-- Python `s[n:]`: drop the first `n` code points. -/
def strDrop (s : String) (n : Nat) : String :=
  (s.data.drop n).asString

/-- The final path component, as `pathlib.PurePath.name`: split on the
separator and take the last component that is neither empty nor `.`
(pathlib drops empty and `.` parts when parsing a path). -/
def pathName (p : String) : String :=
  ((strSplit p '/').filter (fun c => !(c == "" || c == "."))).getLastD ""

/-- Index of the last `.` in a list of characters, as Python `str.rfind`. -/
def lastDotIdx (cs : List Char) : Option Nat :=
  ((cs.enum.filter (fun ic => ic.2 = '.')).getLast?).map Prod.fst

/-- `pathlib.PurePath.suffix`: the part of the name from its last dot on,
provided that dot is neither the first nor the last character of the name;
otherwise the empty string. -/
def pathSuffix (p : String) : String :=
  let name := pathName p
  match lastDotIdx name.data with
  | none => ""
  | some i => if 0 < i ∧ i < name.length - 1 then strDrop name i else ""

/-- `is_likely_file_path` from `plapt_cli.py`.  The string is never a file
if it contains a newline or is longer than 50 characters; otherwise the
filesystem is probed.  `fs` is the probe `Path(s).is_file()`, with the
`except OSError: return False` branch absorbed into the probe's answer.
(`"\n" in s` is membership of the one-character string, i.e. of the
newline character, among `s`'s characters.) -/
def is_likely_file_path (fs : String → Bool) (s : String) : Bool :=
  if s.data.contains '\n' ∨ s.length > 50 then false else fs s

/-- A parser class (`ProteinParser` / `MoleculeParser`): the set of
extension names `e` for which a `from_e` static method exists, together
with the action of running that method on a path (an external collaborator
that reads the file and may raise). -/
structure ParserClass where
  methods : List String
  run : String → String → Except String (List String)

/-- `ProteinParser` has static methods `from_fasta`, `from_pdb`,
`from_sdf`, `from_txt`. -/
def ProteinParserClass (run : String → String → Except String (List String)) :
    ParserClass :=
  ⟨["fasta", "pdb", "sdf", "txt"], run⟩

/-- `MoleculeParser` has static methods `from_sdf`, `from_pdb`, `from_cif`,
`from_txt`. -/
def MoleculeParserClass (run : String → String → Except String (List String)) :
    ParserClass :=
  ⟨["sdf", "pdb", "cif", "txt"], run⟩

/-- `parse_input` on a single string: if the string is classified as a file
path, dispatch on `Path(s).suffix.lower()` with the leading dot stripped to
the `from_*` method of the parser class, failing when no such method
exists; otherwise the string is literal data and resolves to `[s]`. -/
def parse_input_str (fs : String → Bool) (pc : ParserClass) (s : String) :
    Except String (List String) :=
  if is_likely_file_path fs s then
    let ext := strToLower (pathSuffix s)
    if pc.methods.contains (strDrop ext 1) then pc.run (strDrop ext 1) s
    else Except.error ("Unsupported file extension: " ++ ext)
  else Except.ok [s]

/-- `parse_input` on a list: if any item is classified as a file path, a
list of more than one item is rejected, and a one-item list recurses into
the single item; otherwise the items are taken as literal data unchanged.
(The `[]` branch inside the file case is unreachable: `any` over an empty
list is false; Python would raise `IndexError` there.) -/
def parse_input_list (fs : String → Bool) (pc : ParserClass)
    (xs : List String) : Except String (List String) :=
  if xs.any (fun item => is_likely_file_path fs item) then
    if xs.length > 1 then
      Except.error "When using file input, please provide only one file"
    else
      match xs with
      | [] => Except.error "list index out of range"
      | x :: _ => parse_input_str fs pc x
  else Except.ok xs

/-- Repetition of a whole list, Python's `lst * n`. -/
def listRepeat {α : Type} (l : List α) (n : Nat) : List α :=
  (List.replicate n l).flatten

/-- The cardinality-reconciliation step of `main` (step 2): a singular
protein list is repeated to the molecule count, else a singular molecule
list is repeated to the protein count, else unequal lengths raise
`ValueError` with a fixed message, else both lists pass through. -/
def reconcile (ps ms : List String) :
    Except String (List String × List String) :=
  if ps.length = 1 then Except.ok (listRepeat ps ms.length, ms)
  else if ms.length = 1 then Except.ok (ps, listRepeat ms ps.length)
  else if ps.length ≠ ms.length then
    Except.error "Number of proteins and molecules must match or one must be singular"
  else Except.ok (ps, ms)

/-- One prediction dictionary returned by `Plapt.predict_affinity`. -/
structure Prediction where
  neg_log10_affinity_M : ℚ
  affinity_uM : ℚ
deriving DecidableEq

/-- One formatted result record, the dict built by `format_results`. -/
structure ResultRec where
  protein : String
  molecule : String
  neg_log10_affinity_M : ℚ
  affinity_uM : ℚ
deriving DecidableEq

/-- Recursion underlying `format_results`: the comprehension
`[{...proteins[i]...} for i, pred in enumerate(predictions)]`, with the
Python `IndexError` on a too-short protein or molecule list embedded as
an error. -/
def formatAux (i : Nat) (preds : List Prediction) (ps ms : List String) :
    Except String (List ResultRec) :=
  match preds with
  | [] => Except.ok []
  | p :: rest =>
    match ps.get? i, ms.get? i with
    | some prot, some mol =>
      (formatAux (i + 1) rest ps ms).map
        (fun tail => ⟨prot, mol, p.neg_log10_affinity_M, p.affinity_uM⟩ :: tail)
    | _, _ => Except.error "list index out of range"

/-- `format_results` from `plapt_cli.py`. -/
def format_results (preds : List Prediction) (ps ms : List String) :
    Except String (List ResultRec) :=
  formatAux 0 preds ps ms

/-- Round the fraction `N / D` (`D > 0`) to the nearest integer, ties to
even — the rounding of Python's fixed-point float formatting. -/
def roundHalfEvenNum (N D : ℤ) : ℤ :=
  let f := N.fdiv D
  let r := N - f * D
  if 2 * r < D then f
  else if D < 2 * r then f + 1
  else if f % 2 = 0 then f else f + 1

/-- Left-pad a numeral string with zeros to 4 digits. -/
def natPad4 (n : Nat) : String :=
  let s := toString n
  (List.replicate (4 - s.length) '0').asString ++ s

/-- Python's `format(x, '.4f')` on the rational denoted by the float `x`:
the magnitude rounded half-to-even at the fourth decimal, rendered with
exactly four fractional digits, a leading `-` when the value is negative. -/
def fmt4 (q : ℚ) : String :=
  let a := if q < 0 then -q else q
  let m := roundHalfEvenNum (a.num * 10000) (a.den : ℤ)
  (if q < 0 then "-" else "")
    ++ toString (m / 10000).toNat ++ "." ++ natPad4 (m % 10000).toNat

/-- The console / plain-text line for one record, the f-string of
`write_results`. -/
def lineOf (r : ResultRec) : String :=
  "protein: " ++ r.protein ++ ", molecule: " ++ r.molecule
    ++ ", neg_log10_affinity_M: " ++ fmt4 r.neg_log10_affinity_M
    ++ ", affinity_uM: " ++ fmt4 r.affinity_uM

/-- JSON values, to state what `json.dump` receives: objects keep their
key-value pairs in insertion order, numbers are the exact rationals the
records hold. -/
inductive Json where
  | str (s : String)
  | num (q : ℚ)
  | arr (elems : List Json)
  | obj (fields : List (String × Json))

/-- The JSON value serialized for one record: the dict literal of
`format_results`, whose keys appear in this insertion order. -/
def recToJson (r : ResultRec) : Json :=
  Json.obj
    [("protein", Json.str r.protein),
     ("molecule", Json.str r.molecule),
     ("neg_log10_affinity_M", Json.num r.neg_log10_affinity_M),
     ("affinity_uM", Json.num r.affinity_uM)]

/-- What `write_results` emits, by sink.  The console and fallback text
sinks are the exact lines printed; the JSON sink is the value handed to
`json.dump` (serialized in order, no rounding); the CSV sink (pandas
`DataFrame.to_csv`) keeps the records — no claim concerns its text. -/
inductive Sink where
  | console (lines : List String)
  | jsonFile (path : String) (content : Json)
  | csvFile (path : String) (results : List ResultRec)
  | textFile (path : String) (lines : List String)

/-- `write_results` from `plapt_cli.py`: `stdout` prints one line per
record; otherwise the output path's lowercased suffix selects JSON, CSV,
or the plain-text fallback (same line format as the console). -/
def write_results (results : List ResultRec) (output_path : String) : Sink :=
  if output_path = "stdout" then Sink.console (results.map lineOf)
  else
    let ext := strToLower (pathSuffix output_path)
    if ext = ".json" then
      Sink.jsonFile output_path (Json.arr (results.map recToJson))
    else if ext = ".csv" then Sink.csvFile output_path results
    else Sink.textFile output_path (results.map lineOf)

/-- The collaborators `main` calls out to: the filesystem probe, the two
parser classes' file readers, and `Plapt.predict_affinity`. -/
structure Collab where
  fs : String → Bool
  runProt : String → String → Except String (List String)
  runMol : String → String → Except String (List String)
  predict : List String → List String → Except String (List Prediction)

/-- Steps 1-4 of `main`: parse proteins, parse molecules, reconcile
cardinalities, predict, format.  The first failure short-circuits with its
message. -/
def pipeline (c : Collab) (pa ma : List String) :
    Except String (List ResultRec) :=
  match parse_input_list c.fs (ProteinParserClass c.runProt) pa with
  | Except.error e => Except.error e
  | Except.ok ps =>
    match parse_input_list c.fs (MoleculeParserClass c.runMol) ma with
    | Except.error e => Except.error e
    | Except.ok ms =>
      match reconcile ps ms with
      | Except.error e => Except.error e
      | Except.ok (ps2, ms2) =>
        match c.predict ps2 ms2 with
        | Except.error e => Except.error e
        | Except.ok preds => format_results preds ps2 ms2

/-- Outcome of a run of `main`: either the sink written in step 5, or the
single `Error: ...` line printed to stderr together with the exit status
passed to `sys.exit`. -/
inductive RunOutcome where
  | success (sink : Sink)
  | failure (stderrLine : String) (exitCode : Nat)

/-- `main` from `plapt_cli.py`: the try-block runs the pipeline and, on
success only, opens the sink; any exception is caught once, printed as
`Error: {message}` on stderr, and the process exits with status 1. -/
def mainRun (c : Collab) (pa ma : List String) (out : String) : RunOutcome :=
  match pipeline c pa ma with
  | Except.ok results => RunOutcome.success (write_results results out)
  | Except.error e => RunOutcome.failure ("Error: " ++ e) 1

/-- `ProteinParser.from_txt` / `MoleculeParser.from_txt`, at the level of
the file's text: one entry per line whose stripped form is non-empty, the
stripped form, in file order.  (Iterating a Python text file yields the
text split at newlines; the stripping makes keeping the separators
irrelevant.) -/
def ProteinParser.from_txt (content : String) : List String :=
  ((strSplit content '\n').filter (fun line => !(pyStrip line == ""))).map pyStrip

/-- `MoleculeParser.from_txt`, textually identical to the protein one. -/
def MoleculeParser.from_txt (content : String) : List String :=
  ((strSplit content '\n').filter (fun line => !(pyStrip line == ""))).map pyStrip

/-- The twenty standard one-letter amino-acid codes, the character class of
the `re.sub` in `ProteinParser.from_sdf`. -/
def aminoChars : List Char :=
  ['A', 'C', 'D', 'E', 'F', 'G', 'H', 'I', 'K', 'L',
   'M', 'N', 'P', 'Q', 'R', 'S', 'T', 'V', 'W', 'Y']

/-- `re.sub(r'[^ACDEFGHIKLMNPQRSTVWY]', '', s.upper())`: uppercase, then
keep only the standard amino-acid letters. -/
def cleanSeq (s : String) : String :=
  ((strToUpper s).data.filter (fun c => aminoChars.contains c)).asString

/-- What one SDF record contributes in `ProteinParser.from_sdf`.  The
record is modelled by the raw candidate sequence the property scan or the
residue fallback yields: `none` when the record is unreadable or the
fallback raises, `some s` otherwise (`s` may be empty).  A falsy candidate
is skipped; otherwise the candidate is cleaned and skipped if the cleaned
form is empty. -/
def recContribution (cand : Option String) : Option String :=
  match cand with
  | none => none
  | some s =>
    if s = "" then none
    else if cleanSeq s = "" then none
    else some (cleanSeq s)

/-- The `sequences` list accumulated by `ProteinParser.from_sdf`. -/
def sdfSequences (recs : List (Option String)) : List String :=
  recs.filterMap recContribution

/-- `ProteinParser.from_sdf` over the modelled records: the accumulated
sequences, or `ValueError` when none survive. -/
def ProteinParser.from_sdf (recs : List (Option String)) :
    Except String (List String) :=
  let seqs := sdfSequences recs
  if seqs = [] then Except.error "No valid protein sequences found in file"
  else Except.ok seqs

/-- A filesystem on which exactly `a.txt` exists as a regular file. -/
def fsOneFile : String → Bool := fun s => s == "a.txt"

/-- A filesystem on which exactly `x.FASTA` exists as a regular file. -/
def fsUpperFasta : String → Bool := fun s => s == "x.FASTA"

/-- A file reader that is never reached in the runs we evaluate. -/
def noRun : String → String → Except String (List String) :=
  fun _ _ => Except.error "unreachable"

/-- A file reader answering every request with the single sequence `SEQ`. -/
def runOk : String → String → Except String (List String) :=
  fun _ _ => Except.ok ["SEQ"]

/-- A predictor answering every query with the single record
`{neg_log10_affinity_M: 6.0, affinity_uM: 1.0}`. -/
def predictorEx : List String → List String → Except String (List Prediction) :=
  fun _ _ => Except.ok [⟨6, 1⟩]

/-- Collaborators for concrete runs: no file exists, file readers are
never consulted, the predictor is `predictorEx`. -/
def collabEx : Collab :=
  ⟨fun _ => false, noRun, noRun, predictorEx⟩

lemma listRepeat_singleton {α : Type} (a : α) (n : Nat) :
    listRepeat [a] n = List.replicate n a := by
  induction n with
  | zero => rfl
  | succ n ih =>
    simp only [listRepeat, List.replicate_succ, List.flatten_cons] at *
    rw [ih]
    rfl

/-- C1: a string with a newline or longer than 50 characters is classified
as literal independently of the filesystem; otherwise the classification as
a file reference coincides with the filesystem probe; and every string
classified as literal resolves to the one-element list holding exactly that
string, unchanged. -/
theorem c1_literal_classification (fs fs2 : String → Bool) (pc : ParserClass)
    (s : String) :
    ((s.data.contains '\n' = true ∨ 50 < s.length) →
        is_likely_file_path fs s = false ∧
        is_likely_file_path fs s = is_likely_file_path fs2 s) ∧
    (¬(s.data.contains '\n' = true ∨ 50 < s.length) →
        is_likely_file_path fs s = fs s) ∧
    (is_likely_file_path fs s = false →
        parse_input_str fs pc s = Except.ok [s]) := by
  refine ⟨fun h => ?_, fun h => ?_, fun h => ?_⟩
  · constructor
    · unfold is_likely_file_path
      rw [if_pos h]
    · unfold is_likely_file_path
      rw [if_pos h, if_pos h]
  · unfold is_likely_file_path
    rw [if_neg h]
  · unfold parse_input_str
    rw [h]
    simp

theorem c1_witness :
    is_likely_file_path fsOneFile "MKT\nGGG" = false ∧
    parse_input_str fsOneFile (ProteinParserClass noRun) "MKT\nGGG" =
      Except.ok ["MKT\nGGG"] := by
  have h := c1_literal_classification fsOneFile (fun _ => true)
    (ProteinParserClass noRun) "MKT\nGGG"
  have hc : ("MKT\nGGG".data.contains '\n' = true ∨ 50 < "MKT\nGGG".length) := by
    left; decide
  exact ⟨(h.1 hc).1, h.2.2 (h.1 hc).1⟩

/-- C2 (amended): a singular protein list is replicated to the molecule
count with the molecules unchanged, and symmetrically; equal lengths pass
through unchanged; otherwise reconciliation fails, but with a fixed error
message that does not state the two lengths. -/
theorem c2_reconcile_amended (ps ms : List String) :
    (ps.length = 1 → ∃ p, ps = [p] ∧
        reconcile ps ms = Except.ok (List.replicate ms.length p, ms)) ∧
    (ps.length ≠ 1 → ms.length = 1 → ∃ m, ms = [m] ∧
        reconcile ps ms = Except.ok (ps, List.replicate ps.length m)) ∧
    (ps.length = ms.length → reconcile ps ms = Except.ok (ps, ms)) ∧
    (ps.length ≠ 1 → ms.length ≠ 1 → ps.length ≠ ms.length →
        reconcile ps ms =
          Except.error
            "Number of proteins and molecules must match or one must be singular") := by
  refine ⟨fun h1 => ?_, fun h1 h2 => ?_, fun heq => ?_, fun h1 h2 hne => ?_⟩
  · obtain ⟨p, rfl⟩ := List.length_eq_one.mp h1
    exact ⟨p, rfl, by simp [reconcile, listRepeat_singleton]⟩
  · obtain ⟨m, rfl⟩ := List.length_eq_one.mp h2
    exact ⟨m, rfl, by simp [reconcile, if_neg h1, listRepeat_singleton]⟩
  · by_cases h1 : ps.length = 1
    · obtain ⟨p, rfl⟩ := List.length_eq_one.mp h1
      have : ms.length = 1 := by omega
      obtain ⟨m, rfl⟩ := List.length_eq_one.mp this
      simp [reconcile, listRepeat_singleton]
    · by_cases h2 : ms.length = 1
      · exact absurd (heq.trans h2) h1
      · simp [reconcile, heq, h2]
  · simp [reconcile, if_neg h1, if_neg h2, if_pos hne]

theorem c2_counterexample :
    reconcile ["p1", "p2"] ["m1", "m2", "m3"] =
      Except.error
        "Number of proteins and molecules must match or one must be singular" ∧
    ∀ c ∈ "Number of proteins and molecules must match or one must be singular".data,
      c.isDigit = false := by
  exact ⟨rfl, by decide⟩

theorem c2_witness :
    reconcile ["a", "b"] ["x", "y", "z"] =
      Except.error
        "Number of proteins and molecules must match or one must be singular" :=
  (c2_reconcile_amended ["a", "b"] ["x", "y", "z"]).2.2.2
    (by decide) (by decide) (by decide)

theorem c3_counterexample :
    (["a.txt", "MKT"].filter (fun s => is_likely_file_path fsOneFile s)).length
        = 1 ∧
    1 < (["a.txt", "MKT"] : List String).length ∧
    parse_input_list fsOneFile (ProteinParserClass noRun) ["a.txt", "MKT"] =
      Except.error "When using file input, please provide only one file" := by
  refine ⟨by decide, by decide, by rfl⟩

/-- C3 (amended): a list with more than one element fails with the
ambiguous-input error if and only if AT LEAST one element is classified as
a file reference (the code rejects as soon as any element looks like a
file, not only when two or more do). -/
theorem c3_multi_list_ambiguity (fs : String → Bool) (pc : ParserClass)
    (xs : List String) (hlen : 1 < xs.length) :
    parse_input_list fs pc xs =
        Except.error "When using file input, please provide only one file" ↔
      xs.any (fun s => is_likely_file_path fs s) = true := by
  unfold parse_input_list
  by_cases ha : xs.any (fun s => is_likely_file_path fs s) = true
  · rw [if_pos ha, if_pos hlen]
    simp [ha]
  · rw [if_neg ha]
    simp [ha]

theorem c3_witness :
    parse_input_list fsOneFile (MoleculeParserClass noRun) ["a.txt", "CCO"] =
      Except.error "When using file input, please provide only one file" :=
  (c3_multi_list_ambiguity fsOneFile (MoleculeParserClass noRun)
    ["a.txt", "CCO"] (by decide)).mpr (by decide)

/-- C4: a list of two or more items with exactly one item classified as a
file reference fails with the ambiguous-input error. -/
theorem c4_exactly_one_file_fails (fs : String → Bool) (pc : ParserClass)
    (xs : List String) (hlen : 2 ≤ xs.length)
    (hone : xs.countP (fun s => is_likely_file_path fs s) = 1) :
    parse_input_list fs pc xs =
      Except.error "When using file input, please provide only one file" := by
  have hpos : 0 < xs.countP (fun s => is_likely_file_path fs s) := by
    rw [hone]
    exact Nat.one_pos
  have hany : xs.any (fun s => is_likely_file_path fs s) = true := by
    rw [List.any_eq_true]
    exact List.countP_pos_iff.mp hpos
  unfold parse_input_list
  rw [if_pos hany, if_pos (by omega : xs.length > 1)]

theorem c4_witness :
    parse_input_list fsOneFile (ProteinParserClass noRun) ["MKT", "a.txt"] =
      Except.error "When using file input, please provide only one file" :=
  c4_exactly_one_file_fails fsOneFile (ProteinParserClass noRun)
    ["MKT", "a.txt"] (by decide) (by decide)

lemma parse_input_str_file_pos (fs : String → Bool) (pc : ParserClass)
    (s : String) (hfile : is_likely_file_path fs s = true)
    (hm : strDrop (strToLower (pathSuffix s)) 1 ∈ pc.methods) :
    parse_input_str fs pc s =
      pc.run (strDrop (strToLower (pathSuffix s)) 1) s := by
  simp [parse_input_str, hfile, hm]

lemma parse_input_str_file_neg (fs : String → Bool) (pc : ParserClass)
    (s : String) (hfile : is_likely_file_path fs s = true)
    (hm : strDrop (strToLower (pathSuffix s)) 1 ∉ pc.methods) :
    parse_input_str fs pc s =
      Except.error ("Unsupported file extension: " ++ strToLower (pathSuffix s)) := by
  simp [parse_input_str, hfile, hm]

/-- C5: for a string classified as a file reference, the handler is
selected by the file's suffix, lowercased and with the leading dot
stripped; the protein class supports `fasta`, `pdb`, `sdf`, `txt` and the
molecule class `sdf`, `pdb`, `cif`, `txt` (`cif` only there); any other
extension fails with a message naming the extension. -/
theorem c5_extension_dispatch (fs : String → Bool)
    (runP runM : String → String → Except String (List String)) (s : String)
    (hfile : is_likely_file_path fs s = true) :
    (ProteinParserClass runP).methods = ["fasta", "pdb", "sdf", "txt"] ∧
    (MoleculeParserClass runM).methods = ["sdf", "pdb", "cif", "txt"] ∧
    (strDrop (strToLower (pathSuffix s)) 1 ∈ ["fasta", "pdb", "sdf", "txt"] →
      parse_input_str fs (ProteinParserClass runP) s =
        runP (strDrop (strToLower (pathSuffix s)) 1) s) ∧
    (strDrop (strToLower (pathSuffix s)) 1 ∉ ["fasta", "pdb", "sdf", "txt"] →
      parse_input_str fs (ProteinParserClass runP) s =
        Except.error
          ("Unsupported file extension: " ++ strToLower (pathSuffix s))) ∧
    (strDrop (strToLower (pathSuffix s)) 1 ∈ ["sdf", "pdb", "cif", "txt"] →
      parse_input_str fs (MoleculeParserClass runM) s =
        runM (strDrop (strToLower (pathSuffix s)) 1) s) ∧
    (strDrop (strToLower (pathSuffix s)) 1 ∉ ["sdf", "pdb", "cif", "txt"] →
      parse_input_str fs (MoleculeParserClass runM) s =
        Except.error
          ("Unsupported file extension: " ++ strToLower (pathSuffix s))) :=
  ⟨rfl, rfl,
   fun h => parse_input_str_file_pos fs (ProteinParserClass runP) s hfile h,
   fun h => parse_input_str_file_neg fs (ProteinParserClass runP) s hfile h,
   fun h => parse_input_str_file_pos fs (MoleculeParserClass runM) s hfile h,
   fun h => parse_input_str_file_neg fs (MoleculeParserClass runM) s hfile h⟩

theorem c5_witness :
    parse_input_str fsUpperFasta (ProteinParserClass runOk) "x.FASTA" =
      Except.ok ["SEQ"] ∧
    parse_input_str fsUpperFasta (MoleculeParserClass runOk) "x.FASTA" =
      Except.error "Unsupported file extension: .fasta" := by
  have h := c5_extension_dispatch fsUpperFasta runOk runOk "x.FASTA" (by rfl)
  exact ⟨(h.2.2.1 (by decide)).trans (by rfl),
         (h.2.2.2.2.2 (by decide)).trans (by rfl)⟩

/-- C6: a run of `main` either fails — with the pipeline's single error
message rendered once as `Error: ...` on stderr and exit status 1, no sink
produced — or succeeds, in which case prediction and formatting completed
and the sink is written from the fully formatted results only. -/
theorem c6_orchestration_boundary (c : Collab) (pa ma : List String)
    (out : String) :
    (∀ e, pipeline c pa ma = Except.error e →
        mainRun c pa ma out = RunOutcome.failure ("Error: " ++ e) 1) ∧
    (∀ sink, mainRun c pa ma out = RunOutcome.success sink →
        ∃ ps2 ms2 preds results,
          c.predict ps2 ms2 = Except.ok preds ∧
          format_results preds ps2 ms2 = Except.ok results ∧
          pipeline c pa ma = Except.ok results ∧
          sink = write_results results out) := by
  constructor
  · intro e he
    unfold mainRun
    rw [he]
  · intro sink hs
    unfold mainRun at hs
    cases hp : pipeline c pa ma with
    | error e =>
      rw [hp] at hs
      exact absurd hs (by simp)
    | ok results =>
      rw [hp] at hs
      have hsink : RunOutcome.success (write_results results out)
          = RunOutcome.success sink := hs
      obtain rfl : write_results results out = sink := by
        injection hsink
      cases h1 : parse_input_list c.fs (ProteinParserClass c.runProt) pa with
      | error e =>
        have hc : pipeline c pa ma = Except.error e := by
          unfold pipeline
          simp [h1]
        rw [hc] at hp
        exact absurd hp (by simp)
      | ok ps =>
        cases h2 : parse_input_list c.fs (MoleculeParserClass c.runMol) ma with
        | error e =>
          have hc : pipeline c pa ma = Except.error e := by
            unfold pipeline
            simp [h1, h2]
          rw [hc] at hp
          exact absurd hp (by simp)
        | ok ms =>
          cases h3 : reconcile ps ms with
          | error e =>
            have hc : pipeline c pa ma = Except.error e := by
              unfold pipeline
              simp [h1, h2, h3]
            rw [hc] at hp
            exact absurd hp (by simp)
          | ok pair =>
            obtain ⟨ps2, ms2⟩ := pair
            cases h4 : c.predict ps2 ms2 with
            | error e =>
              have hc : pipeline c pa ma = Except.error e := by
                unfold pipeline
                simp [h1, h2, h3, h4]
              rw [hc] at hp
              exact absurd hp (by simp)
            | ok preds =>
              have hc : pipeline c pa ma = format_results preds ps2 ms2 := by
                unfold pipeline
                simp [h1, h2, h3, h4]
              exact ⟨ps2, ms2, preds, results, h4, hc.symm.trans hp, rfl, rfl⟩

theorem c6_witness :
    mainRun collabEx ["p1", "p2"] ["m1", "m2", "m3"] "stdout" =
      RunOutcome.failure
        ("Error: "
          ++ "Number of proteins and molecules must match or one must be singular")
        1 :=
  (c6_orchestration_boundary collabEx ["p1", "p2"] ["m1", "m2", "m3"]
    "stdout").1
    "Number of proteins and molecules must match or one must be singular"
    (by rfl)

/-- C7: the console sink prints exactly one line per record, in record
order, each of the shape
`protein: P, molecule: M, neg_log10_affinity_M: X, affinity_uM: Y` with
the numbers rendered to four decimals; and the end-to-end run on the
literals `MKT` / `CCO` with predictor output
`{neg_log10_affinity_M: 6.0, affinity_uM: 1.0}` prints exactly the line of
the claim. -/
theorem c7_console_format :
    (∀ results, write_results results "stdout" =
        Sink.console (results.map lineOf)) ∧
    (∀ (results : List ResultRec) (j : Nat) (r : ResultRec),
        results.get? j = some r →
        (results.map lineOf).get? j = some
          ("protein: " ++ r.protein ++ ", molecule: " ++ r.molecule
            ++ ", neg_log10_affinity_M: " ++ fmt4 r.neg_log10_affinity_M
            ++ ", affinity_uM: " ++ fmt4 r.affinity_uM)) ∧
    mainRun collabEx ["MKT"] ["CCO"] "stdout" =
      RunOutcome.success (Sink.console
        ["protein: MKT, molecule: CCO, neg_log10_affinity_M: 6.0000, affinity_uM: 1.0000"]) := by
  refine ⟨fun results => ?_, fun results j r hj => ?_, by rfl⟩
  · unfold write_results
    rw [if_pos rfl]
  · rw [List.get?_map, hj]
    rfl

lemma formatAux_ok_spec (preds : List Prediction) (i : Nat)
    (ps ms : List String) (results : List ResultRec)
    (h : formatAux i preds ps ms = Except.ok results) :
    results.length = preds.length ∧
    ∀ j p, preds.get? j = some p →
      ∃ prot mol, ps.get? (i + j) = some prot ∧ ms.get? (i + j) = some mol ∧
        results.get? j =
          some ⟨prot, mol, p.neg_log10_affinity_M, p.affinity_uM⟩ := by
  induction preds generalizing i results with
  | nil =>
    unfold formatAux at h
    have : results = [] := by
      injection h with h
      exact h.symm
    subst this
    exact ⟨rfl, fun j p hj => by simp at hj⟩
  | cons p rest ih =>
    unfold formatAux at h
    cases h1 : ps.get? i with
    | none =>
      rw [h1] at h
      cases h2 : ms.get? i with
      | none => rw [h2] at h; exact absurd h (by simp)
      | some mol => rw [h2] at h; exact absurd h (by simp)
    | some prot =>
      rw [h1] at h
      cases h2 : ms.get? i with
      | none => rw [h2] at h; exact absurd h (by simp)
      | some mol =>
        rw [h2] at h
        cases h3 : formatAux (i + 1) rest ps ms with
        | error e =>
          rw [h3] at h
          exact absurd h (by simp [Except.map])
        | ok tail =>
          rw [h3] at h
          have hres : results =
              ⟨prot, mol, p.neg_log10_affinity_M, p.affinity_uM⟩ :: tail := by
            simp only [Except.map] at h
            injection h with h
            exact h.symm
          subst hres
          obtain ⟨hlen, hspec⟩ := ih (i + 1) tail h3
          refine ⟨by simp [hlen], fun j q hj => ?_⟩
          cases j with
          | zero =>
            have : q = p := by
              simp at hj
              exact hj.symm
            subst this
            exact ⟨prot, mol, by simpa using h1, by simpa using h2, by simp⟩
          | succ j' =>
            obtain ⟨prot', mol', hp', hm', hr'⟩ :=
              hspec j' q (by simpa using hj)
            refine ⟨prot', mol', ?_, ?_, by simpa using hr'⟩
            · rw [show i + (j' + 1) = i + 1 + j' by omega]
              exact hp'
            · rw [show i + (j' + 1) = i + 1 + j' by omega]
              exact hm'

/-- C8: on a path whose lowercased suffix is `.json`, the value handed to
the serializer is the array of one object per record, in the order of the
reconciled inputs; each object carries exactly the keys `protein`,
`molecule`, `neg_log10_affinity_M`, `affinity_uM` in that insertion order,
and the numbers are the predictor's exact values, unrounded. -/
theorem c8_json_sink (preds : List Prediction) (ps ms : List String)
    (results : List ResultRec) (path : String)
    (hfmt : format_results preds ps ms = Except.ok results)
    (hext : strToLower (pathSuffix path) = ".json") :
    write_results results path =
      Sink.jsonFile path (Json.arr (results.map recToJson)) ∧
    (results.map recToJson).length = preds.length ∧
    ∀ j p, preds.get? j = some p →
      ∃ prot mol, ps.get? j = some prot ∧ ms.get? j = some mol ∧
        (results.map recToJson).get? j = some (Json.obj
          [("protein", Json.str prot),
           ("molecule", Json.str mol),
           ("neg_log10_affinity_M", Json.num p.neg_log10_affinity_M),
           ("affinity_uM", Json.num p.affinity_uM)]) := by
  have hstd : path ≠ "stdout" := by
    intro hpath
    subst hpath
    exact absurd hext (by decide)
  obtain ⟨hlen, hspec⟩ := formatAux_ok_spec preds 0 ps ms results hfmt
  refine ⟨?_, ?_, fun j p hj => ?_⟩
  · unfold write_results
    rw [if_neg hstd]
    simp [hext]
  · simp [hlen]
  · obtain ⟨prot, mol, hp', hm', hr'⟩ := hspec j p hj
    refine ⟨prot, mol, by simpa using hp', by simpa using hm', ?_⟩
    rw [List.get?_map, hr']
    rfl

theorem c8_witness :
    write_results [⟨"MKT", "CCO", 6, 1⟩] "out.json" =
      Sink.jsonFile "out.json"
        (Json.arr (([⟨"MKT", "CCO", 6, 1⟩] : List ResultRec).map recToJson)) :=
  (c8_json_sink [⟨6, 1⟩] ["MKT"] ["CCO"] [⟨"MKT", "CCO", 6, 1⟩] "out.json"
    (by rfl) (by rfl)).1

/-- C9 (amended): txt extraction yields the stripped form of each line
whose stripped form is non-blank, in file order, and every entry is
non-empty; but the result is NOT always of length ≥ 1 — a file with no
non-blank line extracts to the empty list (see the counterexample). -/
theorem c9_txt_extraction (content : String) :
    ProteinParser.from_txt content =
      ((strSplit content '\n').map pyStrip).filter (fun l => !(l == "")) ∧
    MoleculeParser.from_txt content = ProteinParser.from_txt content ∧
    ∀ s ∈ ProteinParser.from_txt content, s ≠ "" := by
  refine ⟨?_, rfl, fun s hs => ?_⟩
  · rw [List.filter_map]
    rfl
  · obtain ⟨line, hline, rfl⟩ := List.mem_map.mp hs
    have hq := (List.mem_filter.mp hline).2
    intro heq
    rw [heq] at hq
    simp at hq

theorem c9_counterexample :
    ProteinParser.from_txt " \n\t\n " = [] ∧
    MoleculeParser.from_txt " \n\t\n " = [] ∧
    (ProteinParser.from_txt " \n\t\n ").length = 0 := by
  exact ⟨rfl, rfl, rfl⟩

theorem c9_witness :
    ProteinParser.from_txt "  MKT \nCCO\n" = ["MKT", "CCO"] ∧
    ("MKT" : String) ≠ "" := by
  refine ⟨by rfl, ?_⟩
  exact (c9_txt_extraction "  MKT \nCCO\n").2.2 "MKT" (by decide)

/-- C10: every sequence protein SDF extraction emits is non-empty and
drawn from the twenty standard one-letter amino-acid codes; a record whose
cleaned candidate is empty contributes no entry at all. -/
theorem c10_sdf_protein_invariant (recs : List (Option String))
    (out : List String) (h : ProteinParser.from_sdf recs = Except.ok out) :
    (∀ s ∈ out, s ≠ "" ∧ ∀ c ∈ s.data, c ∈ aminoChars) ∧
    (∀ cand, recContribution cand = none →
        sdfSequences (cand :: recs) = sdfSequences recs) ∧
    (∀ s : String, cleanSeq s = "" → recContribution (some s) = none) := by
  refine ⟨?_, fun cand hnone => ?_, fun s hc => ?_⟩
  · have hout : out = sdfSequences recs := by
      unfold ProteinParser.from_sdf at h
      by_cases hnil : sdfSequences recs = []
      · rw [if_pos hnil] at h
        exact absurd h (by simp)
      · rw [if_neg hnil] at h
        injection h with h
        exact h.symm
    subst hout
    intro s hs
    obtain ⟨cand, hcand, hcontrib⟩ := List.mem_filterMap.mp hs
    cases cand with
    | none => exact absurd hcontrib (by simp [recContribution])
    | some v =>
      have hcontrib : (if v = "" then none
          else if cleanSeq v = "" then none
          else some (cleanSeq v)) = some s := hcontrib
      by_cases hv : v = ""
      · rw [if_pos hv] at hcontrib
        exact absurd hcontrib (by simp)
      · rw [if_neg hv] at hcontrib
        by_cases hcl : cleanSeq v = ""
        · rw [if_pos hcl] at hcontrib
          exact absurd hcontrib (by simp)
        · rw [if_neg hcl] at hcontrib
          have hs' : s = cleanSeq v := by
            injection hcontrib with hcontrib
            exact hcontrib.symm
          subst hs'
          refine ⟨hcl, fun c hcmem => ?_⟩
          have : c ∈ (strToUpper v).data.filter
              (fun c => aminoChars.contains c) := hcmem
          exact List.elem_iff.mp (List.mem_filter.mp this).2
  · simp [sdfSequences, List.filterMap_cons, hnone]
  · show (if s = "" then none
        else if cleanSeq s = "" then none
        else some (cleanSeq s)) = none
    by_cases hv : s = ""
    · rw [if_pos hv]
    · rw [if_neg hv, if_pos hc]

theorem c10_witness :
    ProteinParser.from_sdf [some "mkt1x", some "zz", none] =
      Except.ok ["MKT"] ∧
    ∀ s ∈ ["MKT"], s ≠ "" ∧ ∀ c ∈ s.data, c ∈ aminoChars := by
  have h := c10_sdf_protein_invariant [some "mkt1x", some "zz", none]
    ["MKT"] (by rfl)
  exact ⟨by rfl, h.1⟩

theorem c7_witness :
    (([⟨"MKT", "CCO", 6, 1⟩] : List ResultRec).map lineOf).get? 0 =
      some "protein: MKT, molecule: CCO, neg_log10_affinity_M: 6.0000, affinity_uM: 1.0000" :=
  (c7_console_format.2.1 [⟨"MKT", "CCO", 6, 1⟩] 0 ⟨"MKT", "CCO", 6, 1⟩
    (by rfl)).trans (by rfl)
